import Mathlib

/-!
Verification of `create-vue`'s `src/index.js`.

Strings are modelled as their lists of characters (`String.data`); regex
character classes are modelled as decidable predicates on code points.
All definitions are translated from the source file; the directory-traversal
helpers (`utils/directoryTraverse.js`), which are imported by the source but
are not part of it, are modelled from the specification where noted.
-/

/-- Character class `[a-z0-9-~]` appearing in `toValidPackageName`'s final
`replace(/[^a-z0-9-~]+/g, '-')` (code points: `a`-`z` = 97..122,
`0`-`9` = 48..57, `-` = 45, `~` = 126). -/
def isAllowedChar (c : Char) : Bool :=
  (97 ≤ c.toNat && c.toNat ≤ 122) || (48 ≤ c.toNat && c.toNat ≤ 57) ||
    c.toNat = 45 || c.toNat = 126

/-- JavaScript whitespace (the regex class `\s`, also used by
`String.prototype.trim`): tab..carriage-return (9..13), space (32),
no-break space (160), ogham space mark (5760), the en-quad..hair-space
block (8192..8202), line/paragraph separators (8232, 8233), narrow no-break
space (8239), medium mathematical space (8287), ideographic space (12288)
and the byte-order mark (65279). -/
def isWsChar (c : Char) : Bool :=
  (9 ≤ c.toNat && c.toNat ≤ 13) || c.toNat = 32 || c.toNat = 160 ||
    c.toNat = 5760 || (8192 ≤ c.toNat && c.toNat ≤ 8202) || c.toNat = 8232 ||
    c.toNat = 8233 || c.toNat = 8239 || c.toNat = 8287 || c.toNat = 12288 ||
    c.toNat = 65279

/-- `String.prototype.toLowerCase`, restricted to the ASCII mapping
`A`-`Z` (65..90) to `a`-`z`; other case mappings cannot influence the
package-name character classes, which are ASCII-only. -/
def lowerChar (c : Char) : Char :=
  if 65 ≤ c.toNat && c.toNat ≤ 90 then Char.ofNat (c.toNat + 32) else c

/-- `String.prototype.trim`: drop leading and trailing whitespace. -/
def trimList (l : List Char) : List Char :=
  ((l.dropWhile isWsChar).reverse.dropWhile isWsChar).reverse

/-- `.replace(/\s+/g, '-')`: each maximal whitespace run becomes a single
hyphen.  The boolean records whether the previous character was whitespace. -/
def collapseWsAux : Bool → List Char → List Char
  | _, [] => []
  | prevWs, c :: cs =>
    if isWsChar c then
      if prevWs then collapseWsAux true cs else '-' :: collapseWsAux true cs
    else c :: collapseWsAux false cs

/-- `.replace(/^[._]/, '')`: drop one leading `.` (46) or `_` (95). -/
def stripLeadingDotUnderscore : List Char → List Char
  | [] => []
  | c :: cs => if c.toNat = 46 || c.toNat = 95 then cs else c :: cs

/-- `.replace(/[^a-z0-9-~]+/g, '-')`: each maximal run of characters outside
`[a-z0-9-~]` becomes a single hyphen. -/
def collapseBadAux : Bool → List Char → List Char
  | _, [] => []
  | prevBad, c :: cs =>
    if isAllowedChar c then c :: collapseBadAux false cs
    else if prevBad then collapseBadAux true cs
    else '-' :: collapseBadAux true cs

/-- `toValidPackageName` on a character list: trim, lowercase, collapse
whitespace runs to hyphens, strip one leading `.`/`_`, collapse disallowed
runs to hyphens. -/
def toValidPackageNameList (l : List Char) : List Char :=
  collapseBadAux false
    (stripLeadingDotUnderscore
      (collapseWsAux false (List.map lowerChar (trimList l))))

/-- `toValidPackageName(projectName)` from `src/index.js`. -/
def toValidPackageName (s : String) : String :=
  String.mk (toValidPackageNameList s.data)

/-- Character class `[a-z0-9-*~]`: first character of a scope. -/
def isScopeFirstChar (c : Char) : Bool :=
  (97 ≤ c.toNat && c.toNat ≤ 122) || (48 ≤ c.toNat && c.toNat ≤ 57) ||
    c.toNat = 45 || c.toNat = 42 || c.toNat = 126

/-- Character class `[a-z0-9-*._~]`: remaining characters of a scope. -/
def isScopeRestChar (c : Char) : Bool :=
  isScopeFirstChar c || c.toNat = 46 || c.toNat = 95

/-- Character class `[a-z0-9-~]`: first character of the name part. -/
def isNameFirstChar (c : Char) : Bool :=
  (97 ≤ c.toNat && c.toNat ≤ 122) || (48 ≤ c.toNat && c.toNat ≤ 57) ||
    c.toNat = 45 || c.toNat = 126

/-- Character class `[a-z0-9-._~]`: remaining characters of the name part. -/
def isNameRestChar (c : Char) : Bool :=
  isNameFirstChar c || c.toNat = 46 || c.toNat = 95

/-- `[a-z0-9-~][a-z0-9-._~]*` against the whole list. -/
def matchesNamePart : List Char → Bool
  | [] => false
  | c :: cs => isNameFirstChar c && cs.all isNameRestChar

/-- `[a-z0-9-*~][a-z0-9-*._~]*` against the whole list. -/
def matchesScopePart : List Char → Bool
  | [] => false
  | c :: cs => isScopeFirstChar c && cs.all isScopeRestChar

/-- The anchored regex `/^(?:@[a-z0-9-*~][a-z0-9-*._~]*\/)?[a-z0-9-~][a-z0-9-._~]*$/`
of `isValidPackageName`.  The scope alternative fires exactly when the string
starts with `@` (64) — no name part may start with `@` — and the scope body
never contains `/` (47), so splitting at the first `/` is the only possible
decomposition. -/
def isValidPackageNameList (l : List Char) : Bool :=
  match l with
  | [] => false
  | c :: cs =>
    if c.toNat = 64 then
      match cs.span (fun d => !(d.toNat = 47)) with
      | (scope, _ :: rest) => matchesScopePart scope && matchesNamePart rest
      | (_, []) => false
    else matchesNamePart (c :: cs)

/-- `isValidPackageName(projectName)` from `src/index.js`. -/
def isValidPackageName (s : String) : Bool :=
  isValidPackageNameList s.data

example : isValidPackageName "my-app" = true := by decide
example : isValidPackageName "My App" = false := by decide
example : isValidPackageName "@scope/pkg" = true := by decide
example : isValidPackageName "@/pkg" = false := by decide
example : isValidPackageName "" = false := by decide
example : toValidPackageName "My App!!" = "my-app-" := by decide
example : toValidPackageName "  _Hello World  " = "hello-world" := by decide
example : toValidPackageName "" = "" := by decide
example : toValidPackageName "." = "" := by decide

theorem allowed_toNat (c : Char) (h : isAllowedChar c = true) :
    (97 ≤ c.toNat ∧ c.toNat ≤ 122) ∨ (48 ≤ c.toNat ∧ c.toNat ≤ 57) ∨
      c.toNat = 45 ∨ c.toNat = 126 := by
  simp [isAllowedChar] at h
  tauto

theorem allowed_collapseBadAux (l : List Char) :
    ∀ flag, (collapseBadAux flag l).all isAllowedChar = true := by
  induction l with
  | nil => intro flag; rfl
  | cons c cs ih =>
    intro flag
    rcases h : isAllowedChar c with _ | _
    · have hh : isAllowedChar '-' = true := by decide
      cases flag <;> simp [collapseBadAux, h, ih, hh]
    · simp [collapseBadAux, h, ih]

theorem allowed_toValidList (l : List Char) :
    (toValidPackageNameList l).all isAllowedChar = true :=
  allowed_collapseBadAux _ false

theorem allowed_isNameFirst (c : Char) (h : isAllowedChar c = true) :
    isNameFirstChar c = true := h

theorem allowed_isNameRest (c : Char) (h : isAllowedChar c = true) :
    isNameRestChar c = true := by
  simp [isNameRestChar, allowed_isNameFirst c h]

theorem allowed_not_ws (c : Char) (h : isAllowedChar c = true) :
    isWsChar c = false := by
  rcases hw : isWsChar c with _ | _
  · rfl
  · have h1 := allowed_toNat c h
    simp [isWsChar] at hw
    omega

theorem allowed_lowerChar (c : Char) (h : isAllowedChar c = true) :
    lowerChar c = c := by
  have h1 := allowed_toNat c h
  have h2 : (65 ≤ c.toNat && c.toNat ≤ 90) = false := by
    simp
    omega
  simp [lowerChar, h2]

theorem allowed_not_dot_underscore (c : Char) (h : isAllowedChar c = true) :
    (c.toNat = 46 || c.toNat = 95) = false := by
  have h1 := allowed_toNat c h
  simp
  omega

theorem dropWhile_ws_of_allowed (l : List Char) (h : l.all isAllowedChar = true) :
    l.dropWhile isWsChar = l := by
  cases l with
  | nil => rfl
  | cons c cs =>
    simp only [List.all_cons, Bool.and_eq_true] at h
    simp [List.dropWhile_cons, allowed_not_ws c h.1]

theorem trimList_of_allowed (l : List Char) (h : l.all isAllowedChar = true) :
    trimList l = l := by
  unfold trimList
  rw [dropWhile_ws_of_allowed l h,
    dropWhile_ws_of_allowed l.reverse (by simpa using h), List.reverse_reverse]

theorem map_lower_of_allowed (l : List Char) (h : l.all isAllowedChar = true) :
    List.map lowerChar l = l := by
  induction l with
  | nil => rfl
  | cons c cs ih =>
    simp only [List.all_cons, Bool.and_eq_true] at h
    simp [allowed_lowerChar c h.1, ih h.2]

theorem collapseWs_of_allowed (l : List Char) (h : l.all isAllowedChar = true) :
    ∀ flag, collapseWsAux flag l = l := by
  induction l with
  | nil => intro flag; rfl
  | cons c cs ih =>
    intro flag
    simp only [List.all_cons, Bool.and_eq_true] at h
    simp [collapseWsAux, allowed_not_ws c h.1, ih h.2]

theorem stripLeading_of_allowed (l : List Char) (h : l.all isAllowedChar = true) :
    stripLeadingDotUnderscore l = l := by
  cases l with
  | nil => rfl
  | cons c cs =>
    simp only [List.all_cons, Bool.and_eq_true] at h
    simp [stripLeadingDotUnderscore, allowed_not_dot_underscore c h.1]

theorem collapseBad_of_allowed (l : List Char) (h : l.all isAllowedChar = true) :
    ∀ flag, collapseBadAux flag l = l := by
  induction l with
  | nil => intro flag; rfl
  | cons c cs ih =>
    intro flag
    simp only [List.all_cons, Bool.and_eq_true] at h
    simp [collapseBadAux, h.1, ih h.2]

theorem toValidList_of_allowed (l : List Char) (h : l.all isAllowedChar = true) :
    toValidPackageNameList l = l := by
  unfold toValidPackageNameList
  rw [trimList_of_allowed l h, map_lower_of_allowed l h,
    collapseWs_of_allowed l h, stripLeading_of_allowed l h,
    collapseBad_of_allowed l h]

theorem allowed_ne_at (c : Char) (h : isAllowedChar c = true) :
    ¬ (c.toNat = 64) := by
  have h1 := allowed_toNat c h
  omega

theorem validList_of_allowed (l : List Char) (hne : l ≠ [])
    (h : l.all isAllowedChar = true) : isValidPackageNameList l = true := by
  cases l with
  | nil => exact absurd rfl hne
  | cons c cs =>
    simp only [List.all_cons, Bool.and_eq_true] at h
    simp only [isValidPackageNameList]
    rw [if_neg (allowed_ne_at c h.1)]
    simp only [matchesNamePart]
    rw [allowed_isNameFirst c h.1]
    simp only [Bool.true_and]
    rw [List.all_eq_true] at h ⊢
    intro x hx
    exact allowed_isNameRest x (h.2 x hx)

/-- C3 (counterexample): `toValidPackageName("My App!!")` does not return the
string `"my-app--"` claimed by the spec — the run `!!` of disallowed
characters is replaced by a single hyphen, giving `"my-app-"`. -/
theorem toValidPackageName_MyApp_ne_claimed :
    toValidPackageName "My App!!" ≠ "my-app--" := by decide

/-- C3 (amended): `isValidPackageName("my-app")` is true,
`isValidPackageName("My App")` is false, and `toValidPackageName("My App!!")`
returns exactly `"my-app-"` (lowercase, spaces to hyphens, strip leading
`.`/`_`, each disallowed run replaced by one `-`). -/
theorem packageName_examples :
    isValidPackageName "my-app" = true ∧ isValidPackageName "My App" = false ∧
      toValidPackageName "My App!!" = "my-app-" := by decide

/-- C4 (counterexample): the normalization of the empty string is the empty
string, which `isValidPackageName` rejects, so
`isValidPackageName(toValidPackageName(s))` does not hold for every `s`. -/
theorem toValidPackageName_empty_not_valid :
    isValidPackageName (toValidPackageName "") = false := by decide

/-- C4 (amended): for every input string whose normalization is non-empty,
the output of `toValidPackageName` satisfies `isValidPackageName`. -/
theorem toValidPackageName_satisfies_isValid (s : String)
    (h : toValidPackageName s ≠ "") :
    isValidPackageName (toValidPackageName s) = true := by
  show isValidPackageNameList (toValidPackageNameList s.data) = true
  apply validList_of_allowed _ _ (allowed_toValidList s.data)
  intro hnil
  apply h
  show String.mk (toValidPackageNameList s.data) = String.mk []
  rw [hnil]

/-- C4 (witness): the amended theorem applied at `"My App!!"`. -/
theorem toValidPackageName_satisfies_isValid_witness :
    isValidPackageName (toValidPackageName "My App!!") = true :=
  toValidPackageName_satisfies_isValid "My App!!" (by decide)

/-- C5: `toValidPackageName` is idempotent: applying it twice yields the same
string as applying it once, for every input string. -/
theorem toValidPackageName_idempotent (s : String) :
    toValidPackageName (toValidPackageName s) = toValidPackageName s := by
  show String.mk (toValidPackageNameList (toValidPackageNameList s.data)) =
    String.mk (toValidPackageNameList s.data)
  rw [toValidList_of_allowed _ (allowed_toValidList s.data)]

/-- The resolved feature choices that drive the render phase of `init`
(the destructured `needsXxx` constants, as truthy booleans). -/
structure Config where
  needsTypeScript : Bool
  needsJsx : Bool
  needsRouter : Bool
  needsPinia : Bool
  needsTests : Bool
deriving DecidableEq

/-- A template directory identifier under `template/`, as passed to
`render`: `base`, `config/<name>`, `code/<variant>` or `entry/<variant>`. -/
inductive Template where
  | base
  | config (name : String)
  | code (variant : String)
  | entry (variant : String)
deriving DecidableEq

/-- The `codeTemplate` expression of `init`:
`(needsTypeScript ? 'typescript-' : '') + (needsRouter ? 'router' : 'default')`. -/
def codeTemplate (cfg : Config) : String :=
  (if cfg.needsTypeScript then "typescript-" else "") ++
    (if cfg.needsRouter then "router" else "default")

/-- The entry-file template chosen by `init`'s if/else-if chain on
`needsPinia` and `needsRouter`. -/
def entryTemplate (cfg : Config) : String :=
  if cfg.needsPinia && cfg.needsRouter then "router-and-pinia"
  else if cfg.needsPinia then "pinia"
  else if cfg.needsRouter then "router"
  else "default"

/-- The sequence of `render(...)` calls in `init`, in program order.  The
ESLint configuration is produced by the separate `renderEslint` helper, not
by a `render(...)` call, and is therefore not an element of this list. -/
def renderPlan (cfg : Config) : List Template :=
  [Template.base] ++
    (if cfg.needsJsx then [Template.config "jsx"] else []) ++
    (if cfg.needsRouter then [Template.config "router"] else []) ++
    (if cfg.needsPinia then [Template.config "pinia"] else []) ++
    (if cfg.needsTests then [Template.config "cypress"] else []) ++
    (if cfg.needsTypeScript then [Template.config "typescript"] else []) ++
    [Template.code (codeTemplate cfg)] ++
    [Template.entry (entryTemplate cfg)]

def isCodeTemplate : Template → Bool
  | .code _ => true
  | _ => false

def isEntryTemplate : Template → Bool
  | .entry _ => true
  | _ => false

/-- C6: every configuration's render plan contains exactly one code-variant
template, its name is the `typescript-` prefix (present iff TypeScript is
set) followed by `router` or `default` according to the router flag, only
four names are possible (each of them attained), and in particular
TypeScript with router yields `typescript-router`. -/
theorem codeTemplate_spec :
    (∀ ts jsx rt pinia tests : Bool,
      (renderPlan ⟨ts, jsx, rt, pinia, tests⟩).filter isCodeTemplate =
        [Template.code ((if ts then "typescript-" else "") ++
          (if rt then "router" else "default"))]) ∧
    (∀ ts jsx rt pinia tests : Bool,
      codeTemplate ⟨ts, jsx, rt, pinia, tests⟩ = "default" ∨
      codeTemplate ⟨ts, jsx, rt, pinia, tests⟩ = "router" ∨
      codeTemplate ⟨ts, jsx, rt, pinia, tests⟩ = "typescript-default" ∨
      codeTemplate ⟨ts, jsx, rt, pinia, tests⟩ = "typescript-router") ∧
    codeTemplate ⟨false, false, false, false, false⟩ = "default" ∧
    codeTemplate ⟨false, false, true, false, false⟩ = "router" ∧
    codeTemplate ⟨true, false, false, false, false⟩ = "typescript-default" ∧
    codeTemplate ⟨true, false, true, false, false⟩ = "typescript-router" := by
  refine ⟨?_, ?_, ?_, ?_, ?_, ?_⟩ <;> decide

/-- C7: every configuration's render plan contains exactly one entry-variant
template, chosen in priority order on the Pinia and router flags —
both set: `router-and-pinia`; Pinia only: `pinia`; router only: `router`;
neither: `default` — and in particular Pinia without TypeScript and router
gives entry variant `pinia` and code variant `default`. -/
theorem entryTemplate_spec :
    (∀ ts jsx rt pinia tests : Bool,
      (renderPlan ⟨ts, jsx, rt, pinia, tests⟩).filter isEntryTemplate =
        [Template.entry (entryTemplate ⟨ts, jsx, rt, pinia, tests⟩)]) ∧
    (∀ ts jsx tests : Bool,
      entryTemplate ⟨ts, jsx, true, true, tests⟩ = "router-and-pinia") ∧
    (∀ ts jsx tests : Bool,
      entryTemplate ⟨ts, jsx, false, true, tests⟩ = "pinia") ∧
    (∀ ts jsx tests : Bool,
      entryTemplate ⟨ts, jsx, true, false, tests⟩ = "router") ∧
    (∀ ts jsx tests : Bool,
      entryTemplate ⟨ts, jsx, false, false, tests⟩ = "default") ∧
    entryTemplate ⟨false, false, false, true, false⟩ = "pinia" ∧
    codeTemplate ⟨false, false, false, true, false⟩ = "default" := by
  refine ⟨?_, ?_, ?_, ?_, ?_, ?_, ?_⟩ <;> decide

/-- The parsed command line (minimist with `boolean: true`): each flag is
`none` when absent (JS `undefined`) or `some b` when present with boolean
value `b`.  Aliases — `--ts` for `--typescript`, `--vue-router` for
`--router`, `--tests`/`--cypress` for `--with-tests` — write the same field
as the primary spelling. -/
structure Argv where
  default : Option Bool
  typescript : Option Bool
  jsx : Option Bool
  router : Option Bool
  pinia : Option Bool
  tests : Option Bool
  eslint : Option Bool
  eslintWithPrettier : Option Bool
  force : Option Bool
deriving DecidableEq

/-- JS `a || b` over `undefined`-or-boolean values: `a` when truthy
(i.e. `true`), otherwise `b`. -/
def jsOr (a b : Option Bool) : Option Bool :=
  if a = some true then a else b

/-- JS truthiness of an `undefined`-or-boolean value. -/
def jsTruthy (a : Option Bool) : Bool :=
  a = some true

/-- `isFeatureFlagsUsed`:
`typeof (argv.default || argv.ts || argv.jsx || argv.router || argv.pinia ||
argv.tests || argv.eslint) === 'boolean'`.  Note `argv['eslint-with-prettier']`
is not part of the chain. -/
def isFeatureFlagsUsed (v : Argv) : Bool :=
  (jsOr (jsOr (jsOr (jsOr (jsOr (jsOr v.default v.typescript) v.jsx)
    v.router) v.pinia) v.tests) v.eslint).isSome

/-- The toggle prompts' `type` thunks return null — the prompt is skipped —
exactly when `isFeatureFlagsUsed` holds. -/
def typeScriptPromptShown (v : Argv) : Bool := !isFeatureFlagsUsed v

def jsxPromptShown (v : Argv) : Bool := !isFeatureFlagsUsed v

def routerPromptShown (v : Argv) : Bool := !isFeatureFlagsUsed v

def piniaPromptShown (v : Argv) : Bool := !isFeatureFlagsUsed v

def testsPromptShown (v : Argv) : Bool := !isFeatureFlagsUsed v

def eslintPromptShown (v : Argv) : Bool := !isFeatureFlagsUsed v

/-- The answers the user would give to the toggle prompts; consulted only
for prompts that are actually shown. -/
structure Answers where
  typescript : Bool
  jsx : Bool
  router : Bool
  pinia : Bool
  tests : Bool
  eslint : Bool
  prettier : Bool
deriving DecidableEq

/-- The Prettier prompt is shown only when the feature prompts run at all
and the ESLint prompt was answered affirmatively
(`isFeatureFlagsUsed || !values.needsEslint` returns null). -/
def prettierPromptShown (v : Argv) (a : Answers) : Bool :=
  !isFeatureFlagsUsed v && a.eslint

/-- The destructured `needsXxx` values of `init` after the prompt run. -/
structure Resolved where
  needsTypeScript : Option Bool
  needsJsx : Option Bool
  needsRouter : Option Bool
  needsPinia : Option Bool
  needsTests : Option Bool
  needsEslint : Option Bool
  needsPrettier : Option Bool
deriving DecidableEq

/-- Destructuring with defaults: a prompt that ran contributes its answer;
a skipped prompt leaves the key absent, so the argv-derived default applies
(`needsJsx = argv.jsx`, ..., `needsEslint = argv.eslint ||
argv['eslint-with-prettier']`, `needsPrettier = argv['eslint-with-prettier']`). -/
def resolveFlags (v : Argv) (a : Answers) : Resolved :=
  { needsTypeScript :=
      if isFeatureFlagsUsed v then v.typescript else some a.typescript
    needsJsx := if isFeatureFlagsUsed v then v.jsx else some a.jsx
    needsRouter := if isFeatureFlagsUsed v then v.router else some a.router
    needsPinia := if isFeatureFlagsUsed v then v.pinia else some a.pinia
    needsTests := if isFeatureFlagsUsed v then v.tests else some a.tests
    needsEslint :=
      if isFeatureFlagsUsed v then jsOr v.eslint v.eslintWithPrettier
      else some a.eslint
    needsPrettier :=
      if prettierPromptShown v a then some a.prettier
      else v.eslintWithPrettier }

/-- A command line carrying only `--eslint-with-prettier`. -/
def ewpOnlyArgv : Argv :=
  { default := none, typescript := none, jsx := none, router := none,
    pinia := none, tests := none, eslint := none,
    eslintWithPrettier := some true, force := none }

/-- C2 (counterexample): `--eslint-with-prettier` is listed among the feature
flags, but supplying it alone does not put the program in explicit mode —
`isFeatureFlagsUsed` inspects only the seven other flags, so the TypeScript
prompt (and every other feature prompt) is still shown. -/
theorem eslintWithPrettier_not_skipping :
    ewpOnlyArgv.eslintWithPrettier = some true ∧
      isFeatureFlagsUsed ewpOnlyArgv = false ∧
      typeScriptPromptShown ewpOnlyArgv = true := by decide

theorem jsOr_isSome (a b : Option Bool) :
    (jsOr a b).isSome = (decide (a = some true) || b.isSome) := by
  unfold jsOr
  split <;> simp_all

theorem jsOr_eq_some_true (a b : Option Bool) :
    jsOr a b = some true ↔ (a = some true ∨ b = some true) := by
  unfold jsOr
  split <;> simp_all

/-- C2 (amended): if any of the seven feature flags inspected by
`isFeatureFlagsUsed` — `--default`, `--typescript`/`--ts`, `--jsx`,
`--router`/`--vue-router`, `--pinia`, `--with-tests`/`--tests`/`--cypress`,
`--eslint` (but not `--eslint-with-prettier`) — is supplied on the command
line, then every interactive feature-flag prompt is skipped, and every
feature flag not supplied evaluates to false/absent rather than being
prompted. -/
theorem featureFlags_skip_prompts (v : Argv) (a : Answers)
    (h : v.default = some true ∨ v.typescript = some true ∨ v.jsx = some true ∨
      v.router = some true ∨ v.pinia = some true ∨ v.tests = some true ∨
      v.eslint = some true) :
    isFeatureFlagsUsed v = true ∧
      typeScriptPromptShown v = false ∧ jsxPromptShown v = false ∧
      routerPromptShown v = false ∧ piniaPromptShown v = false ∧
      testsPromptShown v = false ∧ eslintPromptShown v = false ∧
      prettierPromptShown v a = false ∧
      (v.typescript = none → jsTruthy (resolveFlags v a).needsTypeScript = false) ∧
      (v.jsx = none → jsTruthy (resolveFlags v a).needsJsx = false) ∧
      (v.router = none → jsTruthy (resolveFlags v a).needsRouter = false) ∧
      (v.pinia = none → jsTruthy (resolveFlags v a).needsPinia = false) ∧
      (v.tests = none → jsTruthy (resolveFlags v a).needsTests = false) ∧
      (v.eslint = none → v.eslintWithPrettier = none →
        jsTruthy (resolveFlags v a).needsEslint = false) ∧
      (v.eslintWithPrettier = none →
        jsTruthy (resolveFlags v a).needsPrettier = false) := by
  have hused : isFeatureFlagsUsed v = true := by
    unfold isFeatureFlagsUsed
    simp only [jsOr_isSome, jsOr_eq_some_true, Bool.or_eq_true,
      decide_eq_true_eq]
    rcases h with h | h | h | h | h | h | h <;> simp [h]
  refine ⟨hused, ?_, ?_, ?_, ?_, ?_, ?_, ?_, ?_, ?_, ?_, ?_, ?_, ?_, ?_⟩
  · simp [typeScriptPromptShown, hused]
  · simp [jsxPromptShown, hused]
  · simp [routerPromptShown, hused]
  · simp [piniaPromptShown, hused]
  · simp [testsPromptShown, hused]
  · simp [eslintPromptShown, hused]
  · simp [prettierPromptShown, hused]
  · intro h1; simp [resolveFlags, hused, jsTruthy, h1]
  · intro h1; simp [resolveFlags, hused, jsTruthy, h1]
  · intro h1; simp [resolveFlags, hused, jsTruthy, h1]
  · intro h1; simp [resolveFlags, hused, jsTruthy, h1]
  · intro h1; simp [resolveFlags, hused, jsTruthy, h1]
  · intro h1 h2; simp [resolveFlags, hused, jsTruthy, jsOr, h1, h2]
  · intro h1
    simp [resolveFlags, prettierPromptShown, hused, jsTruthy, h1]

/-- A command line carrying only `--pinia`. -/
def piniaOnlyArgv : Argv :=
  { default := none, typescript := none, jsx := none, router := none,
    pinia := some true, tests := none, eslint := none,
    eslintWithPrettier := none, force := none }

/-- Would-be prompt answers, all affirmative. -/
def allYesAnswers : Answers :=
  ⟨true, true, true, true, true, true, true⟩

/-- C2 (witness): the amended theorem applied to `--pinia` alone: explicit
mode holds, no feature prompt is shown, and every unset flag resolves to
absent even though the would-be answers are all `Yes`. -/
theorem featureFlags_skip_prompts_witness :
    isFeatureFlagsUsed piniaOnlyArgv = true ∧
      typeScriptPromptShown piniaOnlyArgv = false ∧
      jsxPromptShown piniaOnlyArgv = false ∧
      routerPromptShown piniaOnlyArgv = false ∧
      piniaPromptShown piniaOnlyArgv = false ∧
      testsPromptShown piniaOnlyArgv = false ∧
      eslintPromptShown piniaOnlyArgv = false ∧
      prettierPromptShown piniaOnlyArgv allYesAnswers = false ∧
      (piniaOnlyArgv.typescript = none →
        jsTruthy (resolveFlags piniaOnlyArgv allYesAnswers).needsTypeScript = false) ∧
      (piniaOnlyArgv.jsx = none →
        jsTruthy (resolveFlags piniaOnlyArgv allYesAnswers).needsJsx = false) ∧
      (piniaOnlyArgv.router = none →
        jsTruthy (resolveFlags piniaOnlyArgv allYesAnswers).needsRouter = false) ∧
      (piniaOnlyArgv.pinia = none →
        jsTruthy (resolveFlags piniaOnlyArgv allYesAnswers).needsPinia = false) ∧
      (piniaOnlyArgv.tests = none →
        jsTruthy (resolveFlags piniaOnlyArgv allYesAnswers).needsTests = false) ∧
      (piniaOnlyArgv.eslint = none → piniaOnlyArgv.eslintWithPrettier = none →
        jsTruthy (resolveFlags piniaOnlyArgv allYesAnswers).needsEslint = false) ∧
      (piniaOnlyArgv.eslintWithPrettier = none →
        jsTruthy (resolveFlags piniaOnlyArgv allYesAnswers).needsPrettier = false) :=
  featureFlags_skip_prompts piniaOnlyArgv allYesAnswers
    (Or.inr (Or.inr (Or.inr (Or.inr (Or.inl rfl)))))

/-- The state of the target directory on disk: whether it exists and the
names of its entries. -/
structure TargetDir where
  dirExists : Bool
  entries : List String
deriving DecidableEq

/-- `canSafelyOverwrite(dir)`:
`!fs.existsSync(dir) || fs.readdirSync(dir).length === 0`. -/
def canSafelyOverwrite (d : TargetDir) : Bool :=
  !d.dirExists || d.entries.isEmpty

/-- Whether the `shouldOverwrite` confirm prompt is shown: its `type` thunk
returns `'confirm'` rather than null exactly when the directory cannot be
safely overwritten and no `--force` flag was given. -/
def overwritePromptShown (d : TargetDir) (forceOverwrite : Bool) : Bool :=
  !(canSafelyOverwrite d || forceOverwrite)

/-- `red('✖') + ' Operation cancelled'`, without the terminal color codes. -/
def cancelMessage : String := "✖ Operation cancelled"

/-- Result of the `prompts(...)` call wrapped in try/catch: either a thrown
cancellation with its message, or completion with the (possibly undefined)
`shouldOverwrite` answer. -/
inductive PromptOutcome where
  | cancel (msg : String)
  | proceed (shouldOverwrite : Option Bool)
deriving DecidableEq

/-- The prompt phase of `init`.  `interrupted` models the interactive session
being interrupted (the `onCancel` handler throws); `confirmAnswer` is the
answer given to the overwrite confirmation when it is shown.  A skipped
prompt leaves `shouldOverwrite` as `none` (JS `undefined`); the
`overwriteChecker` pseudo-prompt throws exactly when `values.shouldOverwrite
=== false`. -/
def promptPhase (d : TargetDir) (forceOverwrite interrupted confirmAnswer : Bool) :
    PromptOutcome :=
  if interrupted then .cancel cancelMessage
  else
    let sow : Option Bool :=
      if overwritePromptShown d forceOverwrite then some confirmAnswer else none
    if sow = some false then .cancel cancelMessage
    else .proceed sow

/-- The `catch (cancelled)` handler: `console.log(cancelled.message)` then
`process.exit(1)`; `none` when the prompt phase completed. -/
def cancelExit : PromptOutcome → Option (Nat × String)
  | .cancel msg => some (1, msg)
  | .proceed _ => none

/-- Target-directory preparation before rendering: `emptyDir(root)` when
`shouldOverwrite` is truthy, `fs.mkdirSync(root)` when the directory does
not exist, nothing otherwise. -/
def prepareTargetDir (d : TargetDir) (shouldOverwrite : Option Bool) : TargetDir :=
  if jsTruthy shouldOverwrite then { d with entries := [] }
  else if !d.dirExists then { dirExists := true, entries := [] }
  else d

/-- C1: confirming the overwrite prompt does empty an existing non-empty
target directory, but `--force` does not: the prompt is skipped, the
destructured `shouldOverwrite` stays undefined (there is no
`shouldOverwrite = argv.force` default), `emptyDir` is never called, and the
pre-existing entries survive into the rendering phase — contradicting both
the spec and the source's own `--force (for force overwriting)` comment. -/
theorem force_overwrite_not_emptied :
    (promptPhase ⟨true, ["old.txt"]⟩ false false true = .proceed (some true) ∧
      prepareTargetDir ⟨true, ["old.txt"]⟩ (some true) = ⟨true, []⟩) ∧
    (promptPhase ⟨true, ["old.txt"]⟩ true false true = .proceed none ∧
      prepareTargetDir ⟨true, ["old.txt"]⟩ none = ⟨true, ["old.txt"]⟩) := by
  decide

/-- C10: whenever the overwrite confirmation is declined or the interactive
session is interrupted, the run ends with exit status 1 and the short
cancellation message only. -/
theorem cancellation_exits_one (d : TargetDir)
    (forceOverwrite interrupted confirmAnswer : Bool)
    (h : interrupted = true ∨
      (overwritePromptShown d forceOverwrite = true ∧ confirmAnswer = false)) :
    cancelExit (promptPhase d forceOverwrite interrupted confirmAnswer) =
      some (1, cancelMessage) := by
  rcases h with h | ⟨h1, h2⟩
  · simp [promptPhase, h, cancelExit]
  · cases hi : interrupted
    · simp [promptPhase, hi, h1, h2, cancelExit]
    · simp [promptPhase, hi, cancelExit]

/-- C10 (witness): declining the overwrite confirmation on an existing
non-empty directory exits with status 1 and the cancellation message. -/
theorem cancellation_exits_one_witness :
    cancelExit (promptPhase ⟨true, ["old.txt"]⟩ false false false) =
      some (1, cancelMessage) :=
  cancellation_exits_one ⟨true, ["old.txt"]⟩ false false false
    (Or.inr ⟨by decide, rfl⟩)

/-- An entry of the rendered target tree: a file (with an abstract content
identifier) or a directory with its children.  Names are character lists. -/
inductive Entry where
  | file (name : List Char) (content : Nat)
  | dir (name : List Char) (children : List Entry)

/-- the basename of an entry -/
def entryName : Entry → List Char
  | .file n _ => n
  | .dir n _ => n

/-- `fs.existsSync` within one directory listing: some entry (file or
directory) has the given name. -/
def hasEntryNamed (es : List Entry) (n : List Char) : Bool :=
  es.any (fun e => entryName e == n)

/-- a file of the given name is present in the listing -/
def hasFileNamed (es : List Entry) (n : List Char) : Bool :=
  es.any (fun e =>
    match e with
    | .file m _ => m == n
    | .dir _ _ => false)

/-- Suffix matcher over reversed lists: `some rest` when the second list is
the first list followed by `rest` (all reversed). -/
def stripSuffixRev : List Char → List Char → Option (List Char)
  | [], l => some l
  | _ :: _, [] => none
  | s :: ss, c :: cs => if c = s then stripSuffixRev ss cs else none

/-- `name.replace(/suf$/, ...)` support: `some stem` exactly when
`n = stem ++ suf`. -/
def stripSuffix (suf n : List Char) : Option (List Char) :=
  (stripSuffixRev suf.reverse n.reverse).map List.reverse

theorem stripSuffixRev_append (s t : List Char) :
    stripSuffixRev s (s ++ t) = some t := by
  induction s with
  | nil => rfl
  | cons c cs ih => simp [stripSuffixRev, ih]

theorem stripSuffixRev_sound (s : List Char) :
    ∀ l t, stripSuffixRev s l = some t → l = s ++ t := by
  induction s with
  | nil =>
    intro l t h
    simp only [stripSuffixRev, Option.some.injEq] at h
    simp [h]
  | cons c cs ih =>
    intro l t h
    cases l with
    | nil => simp [stripSuffixRev] at h
    | cons d ds =>
      simp only [stripSuffixRev] at h
      split at h
      · rename_i hdc
        simp [hdc, ih ds t h]
      · exact absurd h (by simp)

theorem stripSuffix_append (stem suf : List Char) :
    stripSuffix suf (stem ++ suf) = some stem := by
  unfold stripSuffix
  rw [List.reverse_append, stripSuffixRev_append]
  simp

theorem stripSuffix_sound (suf n stem : List Char)
    (h : stripSuffix suf n = some stem) : n = stem ++ suf := by
  unfold stripSuffix at h
  cases hr : stripSuffixRev suf.reverse n.reverse with
  | none => rw [hr] at h; simp at h
  | some r =>
    rw [hr] at h
    simp only [Option.map_some', Option.some.injEq] at h
    have hrev := stripSuffixRev_sound suf.reverse n.reverse r hr
    have : n = (suf.reverse ++ r).reverse := by
      rw [← hrev, List.reverse_reverse]
    rw [this, List.reverse_append, List.reverse_reverse, h]

/-- the extension suffixes `.js` and `.ts` -/
def jsSuffix : List Char := ['.', 'j', 's']

def tsSuffix : List Char := ['.', 't', 's']

/-- The TypeScript cleanup pass of `init` (run when TypeScript is requested),
which the source performs through `preOrderDirectoryTraverse` (modelled from
the spec: the traversal visits every file of every directory, top-down).  In
every directory listing: a `.js` file whose `.ts` sibling exists is deleted,
every other `.js` file is renamed to `.ts`, `jsconfig.json` is renamed to
`tsconfig.json`, and subdirectories are processed recursively.  The
`fs.existsSync(tsFilePath)` check is evaluated against the directory's
pre-pass listing `orig`: the pass never creates a `.ts` name that a later
sibling's check could observe (a stem owns at most one `.js` file), so this
coincides with the live check in the source. -/
def tsConvertEntries (orig : List Entry) : List Entry → List Entry
  | [] => []
  | .file n c :: rest =>
    (match stripSuffix jsSuffix n with
     | some stem =>
       if hasEntryNamed orig (stem ++ tsSuffix) then tsConvertEntries orig rest
       else .file (stem ++ tsSuffix) c :: tsConvertEntries orig rest
     | none =>
       if n = "jsconfig.json".data then
         .file "tsconfig.json".data c :: tsConvertEntries orig rest
       else .file n c :: tsConvertEntries orig rest)
  | .dir n sub :: rest => .dir n (tsConvertEntries sub sub) :: tsConvertEntries orig rest

/-- the whole language-conversion pass applied to a root listing -/
def tsConvert (es : List Entry) : List Entry :=
  tsConvertEntries es es

theorem ts_append_ne_js_append (a b : List Char)
    (h : a ++ tsSuffix = b ++ jsSuffix) : False := by
  have h2 := (List.append_inj' h (by decide)).2
  exact absurd h2 (by decide)

theorem ts_beq_js (a b : List Char) : (a ++ tsSuffix == b ++ jsSuffix) = false := by
  rcases h : (a ++ tsSuffix == b ++ jsSuffix) with _ | _
  · rfl
  · exact absurd (eq_of_beq h) (fun hh => ts_append_ne_js_append a b hh)

theorem stripSuffix_js_of_ts (stem : List Char) :
    stripSuffix jsSuffix (stem ++ tsSuffix) = none := by
  cases h : stripSuffix jsSuffix (stem ++ tsSuffix) with
  | none => rfl
  | some stem2 =>
    exact absurd (stripSuffix_sound _ _ _ h)
      (fun hh => ts_append_ne_js_append stem stem2 hh)

theorem tsconfig_not_js (stem : List Char) :
    ("tsconfig.json".data == stem ++ jsSuffix) = false := by
  rcases h : ("tsconfig.json".data == stem ++ jsSuffix) with _ | _
  · rfl
  · exfalso
    have h2 : stripSuffix jsSuffix ("tsconfig.json".data) = some stem := by
      rw [eq_of_beq h]
      exact stripSuffix_append stem jsSuffix
    have h3 : stripSuffix jsSuffix ("tsconfig.json".data) = none := by decide
    rw [h3] at h2
    exact Option.noConfusion h2

theorem not_js_of_stripSuffix_none (n stem : List Char)
    (hnone : stripSuffix jsSuffix n = none) : (n == stem ++ jsSuffix) = false := by
  rcases h : (n == stem ++ jsSuffix) with _ | _
  · rfl
  · rw [eq_of_beq h, stripSuffix_append] at hnone
    exact Option.noConfusion hnone

theorem ts_append_ne_jsconfig (stem : List Char) :
    ¬ (stem ++ tsSuffix = "jsconfig.json".data) := by
  intro h
  have h2 : stripSuffix tsSuffix ("jsconfig.json".data) = some stem := by
    rw [← h]
    exact stripSuffix_append stem tsSuffix
  have h3 : stripSuffix tsSuffix ("jsconfig.json".data) = none := by decide
  rw [h3] at h2
  exact Option.noConfusion h2

theorem hasFileNamed_cons_file (m : List Char) (c : Nat) (es : List Entry)
    (n : List Char) :
    hasFileNamed (.file m c :: es) n = ((m == n) || hasFileNamed es n) := rfl

theorem hasFileNamed_cons_dir (m : List Char) (sub es : List Entry)
    (n : List Char) :
    hasFileNamed (.dir m sub :: es) n = hasFileNamed es n := rfl

theorem tsConvert_no_js_file (orig es : List Entry) (stem : List Char) :
    hasFileNamed (tsConvertEntries orig es) (stem ++ jsSuffix) = false := by
  induction orig, es using tsConvertEntries.induct with
  | case1 orig =>
    simp only [tsConvertEntries]
    rfl
  | case2 orig n c rest stem2 hs hh ih =>
    simp only [tsConvertEntries, hs]
    rw [if_pos hh]
    exact ih
  | case3 orig n c rest stem2 hs hh ih =>
    simp only [tsConvertEntries, hs]
    rw [if_neg hh, hasFileNamed_cons_file, ts_beq_js stem2 stem, Bool.false_or]
    exact ih
  | case4 orig c rest hs ih =>
    simp only [tsConvertEntries, hs]
    rw [if_pos trivial]
    show (("tsconfig.json".data == stem ++ jsSuffix) ||
      hasFileNamed (tsConvertEntries orig rest) (stem ++ jsSuffix)) = false
    rw [tsconfig_not_js stem, Bool.false_or]
    exact ih
  | case5 orig n c rest hs hj ih =>
    simp only [tsConvertEntries, hs]
    rw [if_neg hj, hasFileNamed_cons_file,
      not_js_of_stripSuffix_none n stem hs, Bool.false_or]
    exact ih
  | case6 orig n sub rest ih1 ih2 =>
    simp only [tsConvertEntries]
    rw [hasFileNamed_cons_dir]
    exact ih2

theorem tsConvertEntries_cons (orig : List Entry) (e : Entry) (rest : List Entry) :
    tsConvertEntries orig (e :: rest) = tsConvertEntries orig rest ∨
      ∃ x, tsConvertEntries orig (e :: rest) = x :: tsConvertEntries orig rest := by
  cases e with
  | file n c =>
    cases hs : stripSuffix jsSuffix n with
    | some stem =>
      by_cases hh : hasEntryNamed orig (stem ++ tsSuffix) = true
      · refine Or.inl ?_
        simp only [tsConvertEntries, hs]
        rw [if_pos hh]
      · refine Or.inr ⟨Entry.file (stem ++ tsSuffix) c, ?_⟩
        simp only [tsConvertEntries, hs]
        rw [if_neg hh]
    | none =>
      by_cases hj : n = "jsconfig.json".data
      · refine Or.inr ⟨Entry.file "tsconfig.json".data c, ?_⟩
        simp only [tsConvertEntries, hs]
        rw [if_pos hj]
      · refine Or.inr ⟨Entry.file n c, ?_⟩
        simp only [tsConvertEntries, hs]
        rw [if_neg hj]
  | dir n sub =>
    exact Or.inr ⟨Entry.dir n (tsConvertEntries sub sub),
      by simp only [tsConvertEntries]⟩

theorem tsConvert_preserves_ts (orig : List Entry) (stem : List Char) (c : Nat) :
    ∀ es, Entry.file (stem ++ tsSuffix) c ∈ es →
      Entry.file (stem ++ tsSuffix) c ∈ tsConvertEntries orig es := by
  intro es
  induction es with
  | nil => intro h; exact absurd h (List.not_mem_nil _)
  | cons e rest ih =>
    intro hmem
    rcases List.mem_cons.mp hmem with he | hrest
    · rw [← he]
      simp only [tsConvertEntries, stripSuffix_js_of_ts stem]
      rw [if_neg (ts_append_ne_jsconfig stem)]
      exact List.mem_cons_self _ _
    · rcases tsConvertEntries_cons orig e rest with hc | ⟨x, hc⟩
      · rw [hc]; exact ih hrest
      · rw [hc]; exact List.mem_cons_of_mem x (ih hrest)

theorem tsConvert_renames_js (orig : List Entry) (stem : List Char) (c : Nat)
    (hts : hasEntryNamed orig (stem ++ tsSuffix) = false) :
    ∀ es, Entry.file (stem ++ jsSuffix) c ∈ es →
      Entry.file (stem ++ tsSuffix) c ∈ tsConvertEntries orig es := by
  intro es
  induction es with
  | nil => intro h; exact absurd h (List.not_mem_nil _)
  | cons e rest ih =>
    intro hmem
    rcases List.mem_cons.mp hmem with he | hrest
    · rw [← he]
      simp only [tsConvertEntries, stripSuffix_append stem jsSuffix, hts,
        Bool.false_eq_true, if_false]
      exact List.mem_cons_self _ _
    · rcases tsConvertEntries_cons orig e rest with hc | ⟨x, hc⟩
      · rw [hc]; exact ih hrest
      · rw [hc]; exact List.mem_cons_of_mem x (ih hrest)

/-- C8: in the TypeScript language-conversion pass, for every directory
listing `orig`: a file `stem.js` with no sibling entry `stem.ts` is renamed —
after the pass `stem.ts` carries its content and no file `stem.js` remains;
any pre-existing sibling `stem.ts` survives unchanged while every `.js` file
is gone (in particular `stem.js` is deleted when `stem.ts` pre-exists). -/
theorem typescript_pass_spec (orig : List Entry) (stem : List Char) (c : Nat)
    (hjs : Entry.file (stem ++ jsSuffix) c ∈ orig) :
    (hasEntryNamed orig (stem ++ tsSuffix) = false →
      Entry.file (stem ++ tsSuffix) c ∈ tsConvert orig) ∧
    (∀ c2, Entry.file (stem ++ tsSuffix) c2 ∈ orig →
      Entry.file (stem ++ tsSuffix) c2 ∈ tsConvert orig) ∧
    hasFileNamed (tsConvert orig) (stem ++ jsSuffix) = false :=
  ⟨fun hts => tsConvert_renames_js orig stem c hts orig hjs,
   fun c2 hmem => tsConvert_preserves_ts orig stem c2 orig hmem,
   tsConvert_no_js_file orig orig stem⟩

/-- A directory listing holding `a.js` (no `a.ts` sibling) together with
`b.js` and a pre-existing `b.ts`. -/
def demoTree : List Entry :=
  [Entry.file ("a".data ++ jsSuffix) 1, Entry.file ("b".data ++ jsSuffix) 2,
    Entry.file ("b".data ++ tsSuffix) 3]

/-- C8 (witness): on the concrete tree, `a.js` is renamed to `a.ts`,
the pre-existing `b.ts` survives with its content, and no `.js` file of
either stem remains. -/
theorem typescript_pass_spec_witness :
    Entry.file ("a".data ++ tsSuffix) 1 ∈ tsConvert demoTree ∧
      Entry.file ("b".data ++ tsSuffix) 3 ∈ tsConvert demoTree ∧
      hasFileNamed (tsConvert demoTree) ("a".data ++ jsSuffix) = false ∧
      hasFileNamed (tsConvert demoTree) ("b".data ++ jsSuffix) = false :=
  ⟨(typescript_pass_spec demoTree "a".data 1
      (List.mem_cons_self _ _)).1 (by decide),
   (typescript_pass_spec demoTree "b".data 2
      (List.mem_cons_of_mem _ (List.mem_cons_self _ _))).2.1 3
      (List.mem_cons_of_mem _ (List.mem_cons_of_mem _ (List.mem_cons_self _ _))),
   (typescript_pass_spec demoTree "a".data 1
      (List.mem_cons_self _ _)).2.2,
   (typescript_pass_spec demoTree "b".data 2
      (List.mem_cons_of_mem _ (List.mem_cons_self _ _))).2.2⟩

/-- The directory names pruned by the test-removal pass of `init`:
`dirname === 'cypress' || dirname === '__tests__'`. -/
def isTestDirName (n : List Char) : Bool :=
  n == "cypress".data || n == "__tests__".data

/-- The test-removal pass of `init` (run when tests are NOT requested),
which the source performs through `preOrderDirectoryTraverse` together with
`emptyDir` (`postOrderDirectoryTraverse`); both traversal helpers live in
`utils/directoryTraverse.js` and are modelled from the spec: the traversal
visits each directory before its contents, a directory named `cypress` or
`__tests__` is deleted together with its entire subtree without descending
into it, every other entry is kept and its subtree traversed. -/
def removeTestDirs : List Entry → List Entry
  | [] => []
  | .file n c :: rest => .file n c :: removeTestDirs rest
  | .dir n sub :: rest =>
    if isTestDirName n then removeTestDirs rest
    else .dir n (removeTestDirs sub) :: removeTestDirs rest

/-- no directory named `cypress`/`__tests__` anywhere in the tree -/
def noTestDirs : List Entry → Bool
  | [] => true
  | .file _ _ :: rest => noTestDirs rest
  | .dir n sub :: rest => !isTestDirName n && noTestDirs sub && noTestDirs rest

theorem removeTestDirs_noTestDirs (es : List Entry) :
    noTestDirs (removeTestDirs es) = true := by
  induction es using removeTestDirs.induct with
  | case1 => simp only [removeTestDirs, noTestDirs]
  | case2 n c rest ih => simp only [removeTestDirs, noTestDirs]; exact ih
  | case3 n sub rest h ih => simp only [removeTestDirs, if_pos h]; exact ih
  | case4 n sub rest h ih1 ih2 =>
    simp [removeTestDirs, if_neg h, noTestDirs, ih1, ih2,
      Bool.eq_false_iff.mpr h]

theorem removeTestDirs_files (es : List Entry) (n : List Char) (c : Nat) :
    Entry.file n c ∈ removeTestDirs es ↔ Entry.file n c ∈ es := by
  induction es using removeTestDirs.induct with
  | case1 => simp only [removeTestDirs]
  | case2 m c2 rest ih =>
    simp only [removeTestDirs, List.mem_cons, ih]
  | case3 m sub rest h ih =>
    rw [removeTestDirs, if_pos h, ih]
    constructor
    · exact fun hh => List.mem_cons_of_mem _ hh
    · intro hh
      rcases List.mem_cons.mp hh with hcontra | hh2
      · exact absurd hcontra (fun hc => Entry.noConfusion hc)
      · exact hh2
  | case4 m sub rest h ih1 ih2 =>
    rw [removeTestDirs, if_neg h]
    constructor
    · intro hh
      rcases List.mem_cons.mp hh with hcontra | hh2
      · exact absurd hcontra (fun hc => Entry.noConfusion hc)
      · exact List.mem_cons_of_mem _ (ih2.mp hh2)
    · intro hh
      rcases List.mem_cons.mp hh with hcontra | hh2
      · exact absurd hcontra (fun hc => Entry.noConfusion hc)
      · exact List.mem_cons_of_mem _ (ih2.mpr hh2)

theorem removeTestDirs_keeps_other_dirs (es : List Entry) (n : List Char)
    (sub : List Entry) (hn : isTestDirName n = false)
    (hmem : Entry.dir n sub ∈ es) :
    Entry.dir n (removeTestDirs sub) ∈ removeTestDirs es := by
  induction es with
  | nil => exact absurd hmem (List.not_mem_nil _)
  | cons e rest ih =>
    rcases List.mem_cons.mp hmem with he | hrest
    · rw [← he]
      simp only [removeTestDirs]
      rw [if_neg (by rw [hn]; exact Bool.false_ne_true)]
      exact List.mem_cons_self _ _
    · cases e with
      | file m c =>
        simp only [removeTestDirs]
        exact List.mem_cons_of_mem _ (ih hrest)
      | dir m msub =>
        simp only [removeTestDirs]
        by_cases hm : isTestDirName m = true
        · rw [if_pos hm]
          exact ih hrest
        · rw [if_neg hm]
          exact List.mem_cons_of_mem _ (ih hrest)

/-- C9: after the test-removal pass no directory named `cypress` or
`__tests__` remains anywhere in the tree (each was removed together with all
of its nested contents), files of a listing are exactly those of the input
listing, and every sibling directory with a different name is kept, with its
own subtree processed the same way. -/
theorem test_removal_spec (es : List Entry) :
    noTestDirs (removeTestDirs es) = true ∧
      (∀ n c, Entry.file n c ∈ removeTestDirs es ↔ Entry.file n c ∈ es) ∧
      (∀ n sub, isTestDirName n = false → Entry.dir n sub ∈ es →
        Entry.dir n (removeTestDirs sub) ∈ removeTestDirs es) :=
  ⟨removeTestDirs_noTestDirs es,
   fun n c => removeTestDirs_files es n c,
   fun n sub hn hmem => removeTestDirs_keeps_other_dirs es n sub hn hmem⟩

/-- A tree with a `cypress` directory holding nested content next to a
`src` sibling directory and a root file. -/
def demoTestTree : List Entry :=
  [Entry.dir "cypress".data
      [Entry.file "demo.spec.js".data 4,
        Entry.dir "fixtures".data [Entry.file "example.json".data 5]],
    Entry.dir "src".data [Entry.file "main.js".data 6],
    Entry.file "index.html".data 7]

/-- C9 (witness): on the concrete tree the pass leaves no test directory,
keeps the root file, and keeps the `src` sibling with its contents. -/
theorem test_removal_spec_witness :
    noTestDirs (removeTestDirs demoTestTree) = true ∧
      (Entry.file "index.html".data 7 ∈ removeTestDirs demoTestTree ↔
        Entry.file "index.html".data 7 ∈ demoTestTree) ∧
      Entry.dir "src".data (removeTestDirs [Entry.file "main.js".data 6]) ∈
        removeTestDirs demoTestTree :=
  ⟨(test_removal_spec demoTestTree).1,
   (test_removal_spec demoTestTree).2.1 "index.html".data 7,
   (test_removal_spec demoTestTree).2.2 "src".data
      [Entry.file "main.js".data 6] (by decide)
      (List.mem_cons_of_mem _ (List.mem_cons_self _ _))⟩
